import Mathlib

/-!
Shallow embedding of the art-coach-ai streaming session core (App.tsx,
CameraTracker.tsx, constants.ts) and proofs about its playback scheduler,
session lifecycle, frame sampler and transcript sink.

Conventions of the embedding:
* React `useRef` cells and `useState` flags become fields of `AppState`.
* Audio-clock times and buffer durations are rationals (`ℚ`); the output
  clock (`outputCtx.currentTime`) is passed explicitly to the handlers that
  read it.
* DOM/WebAudio handles (session objects, interval timers, buffer source
  nodes) are identified by natural-number ids.  To observe side effects on
  those handles, ghost fields record which handles `.close()`,
  `clearInterval` and `.stop()` have been called on; a ghost flag records
  whether the `getUserMedia` microphone stream's tracks are still live
  (the source never calls `track.stop()` on them).
-/

namespace ArtCoach

/-- Transcript speaker tag, from `types.ts` (`type: 'user' | 'ai'`). -/
inductive SpeakerType where
  | user
  | ai
deriving DecidableEq, Repr, Inhabited

/-- One transcript record, from `types.ts` (`TranscriptionItem`). -/
structure TranscriptionItem where
  text : String
  type : SpeakerType
  timestamp : Nat
deriving DecidableEq, Repr, Inhabited

/-- Outcome of `navigator.mediaDevices.getUserMedia({ audio: true })`. -/
inductive MicResult where
  | granted
  | permissionDenied
  | deviceUnavailable
deriving DecidableEq, Repr, Inhabited

/-- True on the failure outcomes of microphone acquisition. -/
def micFails : MicResult → Bool
  | .granted => false
  | .permissionDenied => true
  | .deviceUnavailable => true

/-- The mutable state of the `App` component (App.tsx lines 12-24).
`isActive`/`isConnecting` are the `useState` flags; `sessionRef`,
`frameIntervalRef`, `sourcesRef`, `nextStartTimeRef` are the refs of the
same names (handles as `Nat` ids).  The remaining fields are ghost
observers of side effects: `closedSessions` collects session handles that
received `.close()`, `clearedIntervals` the timer ids passed to
`window.clearInterval`, `stoppedSources` the buffer source nodes that
received `.stop()`, `micLive` whether an acquired microphone stream's
tracks are still running, `errorLogged` whether `console.error` ran, and
`connectCalls` how many times `ai.live.connect` was invoked. -/
structure AppState where
  isActive : Bool
  isConnecting : Bool
  sessionRef : Option Nat
  frameIntervalRef : Option Nat
  sourcesRef : List Nat
  nextStartTimeRef : ℚ
  micLive : Bool
  closedSessions : List Nat
  clearedIntervals : List Nat
  stoppedSources : List Nat
  errorLogged : Bool
  connectCalls : Nat
deriving DecidableEq, Repr, Inhabited

/-- The `stopSession` handler (App.tsx lines 30-42): close and null the
session ref if present, clear and null the frame interval if present, stop
every source in `sourcesRef` and clear the set, then `setIsActive(false)`.
Note that it touches neither `nextStartTimeRef` nor the microphone
stream. -/
def stopSession (st : AppState) : AppState :=
  let st1 :=
    match st.sessionRef with
    | some h => { st with sessionRef := none, closedSessions := st.closedSessions ++ [h] }
    | none => st
  let st2 :=
    match st1.frameIntervalRef with
    | some t =>
        { st1 with frameIntervalRef := none, clearedIntervals := st1.clearedIntervals ++ [t] }
    | none => st1
  { st2 with
      stoppedSources := st2.stoppedSources ++ st2.sourcesRef,
      sourcesRef := [],
      isActive := false }

/-- The inbound-audio branch of the `onmessage` callback (App.tsx lines
108-119): clamp the cursor to `max(nextStartTimeRef, outputCtx.currentTime)`,
start the decoded buffer at that cursor, advance the cursor by the buffer's
duration, and add the new source node to the live set.  Returns the updated
state together with the scheduled start time. -/
def enqueueAudio (st : AppState) (now dur : ℚ) (sid : Nat) : AppState × ℚ :=
  let c := max st.nextStartTimeRef now
  ({ st with nextStartTimeRef := c + dur, sourcesRef := st.sourcesRef ++ [sid] }, c)

/-- The interruption branch of the `onmessage` callback (App.tsx lines
121-125): call `.stop()` on every node in the live set, clear the set, and
set `nextStartTimeRef` to `0`. -/
def interruptAll (st : AppState) : AppState :=
  { st with
      stoppedSources := st.stoppedSources ++ st.sourcesRef,
      sourcesRef := [],
      nextStartTimeRef := 0 }

/-- One inbound audio message: the output-clock reading at processing time,
the decoded buffer's duration, and the id of the source node created for
it. -/
structure AudioEvent where
  now : ℚ
  dur : ℚ
  sid : Nat
deriving DecidableEq, Repr, Inhabited

/-- Process a list of inbound audio messages in order through
`enqueueAudio`, collecting the scheduled start times. -/
def enqueueRun : AppState → List AudioEvent → AppState × List ℚ
  | st, [] => (st, [])
  | st, e :: rest =>
      let p := enqueueAudio st e.now e.dur e.sid
      let q := enqueueRun p.1 rest
      (q.1, p.2 :: q.2)

/-- A message sequence arrives faster than real time when each message is
processed while the output clock still reads at or before the current
cursor. -/
def fasterThanRealTime (cursor : ℚ) : List AudioEvent → Bool
  | [] => true
  | e :: rest => decide (e.now ≤ cursor) && fasterThanRealTime (cursor + e.dur) rest

/-- Start times of a back-to-back schedule beginning at `c` with the given
durations: `c, c + d₁, c + d₁ + d₂, …`. -/
def backToBackStarts (c : ℚ) : List ℚ → List ℚ
  | [] => []
  | d :: ds => c :: backToBackStarts (c + d) ds

theorem backToBackStarts_length (c : ℚ) (ds : List ℚ) :
    (backToBackStarts c ds).length = ds.length := by
  induction ds generalizing c with
  | nil => rfl
  | cons d ds ih => simp [backToBackStarts, ih]

theorem backToBackStarts_getD_zero (c : ℚ) (ds : List ℚ) (h : 0 < ds.length) :
    (backToBackStarts c ds).getD 0 0 = c := by
  cases ds with
  | nil => simp at h
  | cons d ds => rfl

theorem backToBackStarts_getD_succ (c : ℚ) (ds : List ℚ) (i : Nat)
    (h : i + 1 < ds.length) :
    (backToBackStarts c ds).getD (i + 1) 0
      = (backToBackStarts c ds).getD i 0 + ds.getD i 0 := by
  induction ds generalizing c i with
  | nil => simp at h
  | cons d ds ih =>
      cases i with
      | zero =>
          simp only [backToBackStarts, List.getD_cons_succ, List.getD_cons_zero]
          have hlen : 0 < ds.length := by
            simpa using Nat.lt_of_succ_lt_succ h
          rw [backToBackStarts_getD_zero (c + d) ds hlen]
      | succ i =>
          simp only [backToBackStarts, List.getD_cons_succ]
          exact ih (c + d) i (by simpa using Nat.lt_of_succ_lt_succ h)

/-- Under the faster-than-real-time hypothesis the clamp
`max cursor now` never moves the cursor, so the schedule produced by
`enqueueRun` is exactly the back-to-back schedule from the initial
cursor. -/
theorem enqueueRun_starts_eq (st : AppState) (evts : List AudioEvent)
    (hf : fasterThanRealTime st.nextStartTimeRef evts = true) :
    (enqueueRun st evts).2
      = backToBackStarts st.nextStartTimeRef (evts.map AudioEvent.dur) := by
  induction evts generalizing st with
  | nil => rfl
  | cons e rest ih =>
      simp only [fasterThanRealTime, Bool.and_eq_true, decide_eq_true_eq] at hf
      have hmax : max st.nextStartTimeRef e.now = st.nextStartTimeRef :=
        max_eq_left hf.1
      have ih' := ih
        { st with
            nextStartTimeRef := max st.nextStartTimeRef e.now + e.dur,
            sourcesRef := st.sourcesRef ++ [e.sid] }
        (by simpa [hmax] using hf.2)
      simp only [enqueueRun, enqueueAudio, List.map_cons, backToBackStarts]
      rw [hmax] at ih' ⊢
      rw [ih']

theorem getD_map_dur (evts : List AudioEvent) (i : Nat) (h : i < evts.length) :
    (evts.map AudioEvent.dur).getD i 0 = (evts.getD i default).dur := by
  induction evts generalizing i with
  | nil => simp at h
  | cons e rest ih =>
      cases i with
      | zero => rfl
      | succ i =>
          simp only [List.map_cons, List.getD_cons_succ]
          exact ih i (by simpa using Nat.lt_of_succ_lt_succ h)

theorem enqueueRun_length (st : AppState) (evts : List AudioEvent) :
    (enqueueRun st evts).2.length = evts.length := by
  induction evts generalizing st with
  | nil => rfl
  | cons e rest ih => simp [enqueueRun, ih]

/-- The synchronous prefix of the `startSession` handler (App.tsx lines
44-58) up to the point where `ai.live.connect` is initiated, i.e. up to the
session reaching its "Connecting" state: `setIsConnecting(true)`, then
`await getUserMedia`.  If acquisition fails the `catch` block (lines
138-141) runs `console.error` and `setIsConnecting(false)` — `connect` is
never reached.  If it succeeds, the microphone stream is live and `connect`
is called.  Nothing else is touched: in particular no teardown of any prior
session occurs anywhere in `startSession`, and `sessionRef` is only
assigned later (line 137), after the connect promise resolves. -/
def startSessionAttempt (st : AppState) (mic : MicResult) : AppState :=
  let st1 := { st with isConnecting := true }
  match mic with
  | .granted => { st1 with micLive := true, connectCalls := st1.connectCalls + 1 }
  | .permissionDenied => { st1 with isConnecting := false, errorLogged := true }
  | .deviceUnavailable => { st1 with isConnecting := false, errorLogged := true }

/-- The `onopen` callback (App.tsx lines 74-99): `setIsConnecting(false)`,
`setIsActive(true)`, and install the frame-sampling interval timer
(overwriting `frameIntervalRef` with the new timer id). -/
def onOpen (st : AppState) (newTimer : Nat) : AppState :=
  { st with isConnecting := false, isActive := true, frameIntervalRef := some newTimer }

/-- Line 137 of App.tsx: `sessionRef.current = await sessionPromise`. -/
def sessionResolved (st : AppState) (newSession : Nat) : AppState :=
  { st with sessionRef := some newSession }

/-- The refs held by the `CameraTracker` component: `videoRef.current`,
`canvasRef.current`, and the result of `canvas.getContext('2d')` (each may
be null). -/
structure CameraRefs where
  video : Option Nat
  canvas : Option Nat
  ctx2d : Option Nat
deriving DecidableEq, Repr, Inhabited

/-- The `getFrame` handle of `CameraTracker` (CameraTracker.tsx lines
33-52): returns null when the video or canvas element is absent, or when
`getContext('2d')` yields null; otherwise draws the video's current frame
and returns the encoded JPEG payload (abstracted here as the id of the
video element whose frame was encoded). -/
def getFrame (r : CameraRefs) : Option Nat :=
  match r.video, r.canvas with
  | some v, some _ =>
      match r.ctx2d with
      | some _ => some v
      | none => none
  | _, _ => none

/-- One tick of the frame-sampling interval callback (App.tsx lines 88-98):
given the frame returned by the active visual source's `getFrame` (or
`none` when the ref itself is null, via optional chaining), send a media
message only when a frame is present and a session is held; the component
state — including the installed interval timer — is never modified by a
tick. -/
def frameTick (st : AppState) (frame : Option Nat) : AppState × Option Nat :=
  match frame with
  | some f => (st, if st.sessionRef.isSome then some f else none)
  | none => (st, none)

/-- The `addTranscription` callback (App.tsx lines 26-28):
`setTranscriptions(prev => [...prev, { text, type, timestamp }].slice(-15))`.
JavaScript `slice(-15)` keeps the trailing (up to) 15 elements, embedded as
`drop (length - 15)` with truncated subtraction. -/
def addTranscription (prev : List TranscriptionItem) (text : String)
    (ty : SpeakerType) (now : Nat) : List TranscriptionItem :=
  let next := prev ++ [{ text := text, type := ty, timestamp := now }]
  next.drop (next.length - 15)

/-- Trailing window of (up to) 15 elements, the semantics of
JavaScript `slice(-15)`. -/
def last15 (l : List α) : List α :=
  l.drop (l.length - 15)

/-- Build a `TranscriptionItem` from the arguments of one
`addTranscription` call. -/
def mkTranscription (it : String × SpeakerType × Nat) : TranscriptionItem :=
  { text := it.1, type := it.2.1, timestamp := it.2.2 }

/-- Feed a sequence of `addTranscription` calls, in order, into an
initially empty transcript state. -/
def runTranscriptions (items : List (String × SpeakerType × Nat)) : List TranscriptionItem :=
  items.foldl (fun acc it => addTranscription acc it.1 it.2.1 it.2.2) []

theorem last15_eq_reverse (l : List α) : last15 l = (l.reverse.take 15).reverse := by
  have h := List.rtake_eq_reverse_take_reverse (l := l) (n := 15)
  simpa [last15, List.rtake] using h

theorem addTranscription_eq (prev : List TranscriptionItem) (text : String)
    (ty : SpeakerType) (now : Nat) :
    addTranscription prev text ty now
      = last15 (prev ++ [{ text := text, type := ty, timestamp := now }]) := rfl

theorem last15_append_singleton (A : List α) (x : α) :
    last15 (last15 A ++ [x]) = last15 (A ++ [x]) := by
  rw [last15_eq_reverse, last15_eq_reverse, last15_eq_reverse]
  simp only [List.reverse_append, List.reverse_cons, List.reverse_nil, List.nil_append,
    List.reverse_reverse, List.singleton_append, List.take_succ_cons, List.take_take]
  norm_num

theorem last15_length_le (l : List α) : (last15 l).length ≤ 15 := by
  simp only [last15, List.length_drop]
  omega

theorem foldl_addTranscription (items : List (String × SpeakerType × Nat))
    (A : List TranscriptionItem) :
    items.foldl (fun acc it => addTranscription acc it.1 it.2.1 it.2.2) (last15 A)
      = last15 (A ++ items.map mkTranscription) := by
  induction items generalizing A with
  | nil => simp
  | cons it rest ih =>
      simp only [List.foldl_cons, List.map_cons]
      rw [addTranscription_eq, last15_append_singleton]
      have h := ih (A ++ [mkTranscription it])
      rw [List.append_assoc] at h
      simpa [mkTranscription] using h

/-- A representative mid-session state: session handle `1` held, frame
timer `2` installed, three queued playback buffers `3, 4, 5`, cursor ahead
of real time at `10`, microphone stream live. -/
def exActive : AppState :=
  { isActive := true, isConnecting := false, sessionRef := some 1,
    frameIntervalRef := some 2, sourcesRef := [3, 4, 5], nextStartTimeRef := 10,
    micLive := true, closedSessions := [], clearedIntervals := [],
    stoppedSources := [], errorLogged := false, connectCalls := 1 }

/-- The initial idle state of the component. -/
def exIdle : AppState :=
  { isActive := false, isConnecting := false, sessionRef := none,
    frameIntervalRef := none, sourcesRef := [], nextStartTimeRef := 0,
    micLive := false, closedSessions := [], clearedIntervals := [],
    stoppedSources := [], errorLogged := false, connectCalls := 0 }

/-- Three inbound buffers of durations 1, 2, 3 arriving faster than real
time (output clock readings 0, 1, 2). -/
def exEvents : List AudioEvent :=
  [{ now := 0, dur := 1, sid := 11 }, { now := 1, dur := 2, sid := 12 },
   { now := 2, dur := 3, sid := 13 }]

/-- A camera tracker whose video element is not yet attached. -/
def exCamera : CameraRefs := { video := none, canvas := some 1, ctx2d := some 2 }

/-- C1: for a sequence of inbound audio buffers enqueued faster than real
time (each processed while the output clock is at or before the cursor),
the scheduled start times are back-to-back — start[i+1] = start[i] + d[i] —
and monotonically non-decreasing, each start being max(cursor, now) with
the cursor advanced by the buffer's duration. -/
theorem enqueue_starts_back_to_back (st : AppState) (evts : List AudioEvent)
    (hf : fasterThanRealTime st.nextStartTimeRef evts = true)
    (hd : ∀ e ∈ evts, 0 ≤ e.dur) (i : Nat) (hi : i + 1 < evts.length) :
    (enqueueRun st evts).2.getD (i + 1) 0
        = (enqueueRun st evts).2.getD i 0 + (evts.getD i default).dur
      ∧ (enqueueRun st evts).2.getD i 0 ≤ (enqueueRun st evts).2.getD (i + 1) 0 := by
  have hmap : (evts.map AudioEvent.dur).length = evts.length := List.length_map _ _
  rw [enqueueRun_starts_eq st evts hf]
  have hsucc := backToBackStarts_getD_succ st.nextStartTimeRef
    (evts.map AudioEvent.dur) i (by rw [hmap]; exact hi)
  rw [getD_map_dur evts i (Nat.lt_of_succ_lt hi)] at hsucc
  refine ⟨hsucc, ?_⟩
  rw [hsucc]
  have hmem : evts.getD i default ∈ evts := by
    rw [List.getD_eq_getElem evts default (Nat.lt_of_succ_lt hi)]
    exact List.getElem_mem _
  have hd' : 0 ≤ (evts.getD i default).dur := hd _ hmem
  linarith

/-- Witness for the back-to-back schedule property on three concrete
buffers. -/
theorem enqueue_starts_back_to_back_witness :
    fasterThanRealTime exIdle.nextStartTimeRef exEvents = true
      ∧ (∀ e ∈ exEvents, 0 ≤ e.dur)
      ∧ 0 + 1 < exEvents.length
      ∧ ((enqueueRun exIdle exEvents).2.getD (0 + 1) 0
            = (enqueueRun exIdle exEvents).2.getD 0 0 + (exEvents.getD 0 default).dur
          ∧ (enqueueRun exIdle exEvents).2.getD 0 0
            ≤ (enqueueRun exIdle exEvents).2.getD (0 + 1) 0) :=
  ⟨by simp [fasterThanRealTime, exEvents, exIdle], by decide, by decide,
    enqueue_starts_back_to_back exIdle exEvents
      (by simp [fasterThanRealTime, exEvents, exIdle]) (by decide) 0 (by decide)⟩

/-- C2 counterexample: the claim says an interruption resets the cursor to
the output clock's current time.  Take the moment when the output clock
reads 5 while `exActive` has cursor 10 and three queued buffers: the
interruption branch (App.tsx line 124) sets `nextStartTimeRef = 0`, which
is not the clock reading 5. -/
theorem interrupt_cursor_not_now_counterexample :
    (interruptAll exActive).nextStartTimeRef = 0
      ∧ (interruptAll exActive).nextStartTimeRef ≠ 5 := by
  constructor
  · rfl
  · decide

/-- C2 (amended): the interruption branch stops every buffer in the live
set, clears the set, and resets the cursor to 0 — not to the output
clock's current time.  (Because every later enqueue clamps its start to
max(cursor, now), a zero cursor is behaviourally equivalent to "now" for
scheduling purposes.) -/
theorem interrupt_stops_all_and_zeroes_cursor (st : AppState) :
    (interruptAll st).sourcesRef = []
      ∧ (interruptAll st).stoppedSources = st.stoppedSources ++ st.sourcesRef
      ∧ (interruptAll st).nextStartTimeRef = 0 :=
  ⟨rfl, rfl, rfl⟩

/-- C3: an interruption followed by any enqueue schedules the new buffer at
the output clock's current time (the clock never reads a negative time),
never behind previously-interrupted audio. -/
theorem enqueue_after_interrupt_starts_now (st : AppState) (now dur : ℚ)
    (sid : Nat) (h : 0 ≤ now) :
    (enqueueAudio (interruptAll st) now dur sid).2 = now := by
  simp [enqueueAudio, interruptAll, max_eq_right h]

/-- Witness: after an interruption of `exActive`, a buffer enqueued when
the clock reads 5 starts at 5. -/
theorem enqueue_after_interrupt_starts_now_witness :
    (0 : ℚ) ≤ 5 ∧ (enqueueAudio (interruptAll exActive) 5 2 9).2 = 5 :=
  ⟨by decide, enqueue_after_interrupt_starts_now exActive 5 2 9 (by decide)⟩

/-- C4: evaluation of `stopSession` at a full mid-session state.  It closes
the session handle, clears the frame timer, and stops all live buffers —
but the microphone stream acquired by `startSession` (App.tsx line 57) is
left running: no `track.stop()` is ever called in the repository, so
teardown does not release the capture device, contrary to the claim. -/
theorem stop_session_leaves_mic_live :
    (stopSession exActive).sessionRef = none
      ∧ (stopSession exActive).closedSessions = [1]
      ∧ (stopSession exActive).frameIntervalRef = none
      ∧ (stopSession exActive).clearedIntervals = [2]
      ∧ (stopSession exActive).stoppedSources = [3, 4, 5]
      ∧ (stopSession exActive).sourcesRef = []
      ∧ (stopSession exActive).isActive = false
      ∧ (stopSession exActive).micLive = true := by
  decide

/-- C5 counterexample: calling `startSession` while `exActive` is Active
and letting it reach the Connecting point (mic granted, `connect`
initiated) performs no part of the Closing→Idle teardown of the prior
session: the old handle is never closed, the old frame timer never
cleared, and the three live buffers never stopped. -/
theorem restart_performs_no_teardown_counterexample :
    (startSessionAttempt exActive MicResult.granted).isConnecting = true
      ∧ (startSessionAttempt exActive MicResult.granted).closedSessions = []
      ∧ (startSessionAttempt exActive MicResult.granted).sessionRef = some 1
      ∧ (startSessionAttempt exActive MicResult.granted).clearedIntervals = []
      ∧ (startSessionAttempt exActive MicResult.granted).frameIntervalRef = some 2
      ∧ (startSessionAttempt exActive MicResult.granted).stoppedSources = []
      ∧ (startSessionAttempt exActive MicResult.granted).sourcesRef = [3, 4, 5] := by
  decide

/-- C5 (amended): `startSession` itself performs no teardown of a prior
session before the new session reaches Connecting — the prior channel
handle, frame timer, and live playback buffers are all left untouched, for
every starting state and acquisition outcome.  Prior-session teardown
happens only when the UI calls `stopSession` explicitly beforehand (as the
mode-switch click handlers do, and the start button is unreachable while a
session is Active). -/
theorem start_session_preserves_prior_session (st : AppState) (mic : MicResult) :
    (startSessionAttempt st mic).sessionRef = st.sessionRef
      ∧ (startSessionAttempt st mic).frameIntervalRef = st.frameIntervalRef
      ∧ (startSessionAttempt st mic).sourcesRef = st.sourcesRef
      ∧ (startSessionAttempt st mic).closedSessions = st.closedSessions
      ∧ (startSessionAttempt st mic).clearedIntervals = st.clearedIntervals
      ∧ (startSessionAttempt st mic).stoppedSources = st.stoppedSources := by
  cases mic <;> exact ⟨rfl, rfl, rfl, rfl, rfl, rfl⟩

/-- C6: `stopSession` is idempotent — a second call in immediate succession
leaves the entire component state (session handle, frame-timer handle,
live buffer set, active flag, and all observed side effects) exactly as
the first call left it, from every starting state. -/
theorem stop_session_idempotent (st : AppState) :
    stopSession (stopSession st) = stopSession st := by
  cases h1 : st.sessionRef <;> cases h2 : st.frameIntervalRef <;>
    simp [stopSession, h1, h2]

/-- C7: for every sequence of appended transcript entries, the transcript
state equals the trailing window of at most 15 of the full append history
— so at most the 15 most recent entries are retained, the oldest are
evicted first, and the retained entries keep their append order (the
result is a suffix of the full history). -/
theorem transcript_keeps_last_15 (items : List (String × SpeakerType × Nat)) :
    runTranscriptions items = last15 (items.map mkTranscription)
      ∧ (runTranscriptions items).length ≤ 15
      ∧ (runTranscriptions items).IsSuffix (items.map mkTranscription) := by
  have h0 : runTranscriptions items = last15 (items.map mkTranscription) := by
    have h := foldl_addTranscription items []
    simpa [runTranscriptions, last15] using h
  refine ⟨h0, ?_, ?_⟩
  · rw [h0]; exact last15_length_le _
  · rw [h0]; exact List.drop_suffix _ _

/-- C8: when microphone acquisition fails during `startSession` from an
idle state, the component ends not Active and not Connecting (back to
Idle), the error is logged, no remote channel connect is ever initiated,
and no capture stream is acquired. -/
theorem device_failure_returns_to_idle (st : AppState) (mic : MicResult)
    (hIdle : st.isActive = false) (hmic : micFails mic = true) :
    (startSessionAttempt st mic).isActive = false
      ∧ (startSessionAttempt st mic).isConnecting = false
      ∧ (startSessionAttempt st mic).connectCalls = st.connectCalls
      ∧ (startSessionAttempt st mic).errorLogged = true
      ∧ (startSessionAttempt st mic).micLive = st.micLive := by
  cases mic with
  | granted => simp [micFails] at hmic
  | permissionDenied => exact ⟨hIdle, rfl, rfl, rfl, rfl⟩
  | deviceUnavailable => exact ⟨hIdle, rfl, rfl, rfl, rfl⟩

/-- Witness: permission denied while starting from the idle state. -/
theorem device_failure_returns_to_idle_witness :
    exIdle.isActive = false
      ∧ micFails MicResult.permissionDenied = true
      ∧ ((startSessionAttempt exIdle MicResult.permissionDenied).isActive = false
          ∧ (startSessionAttempt exIdle MicResult.permissionDenied).isConnecting = false
          ∧ (startSessionAttempt exIdle MicResult.permissionDenied).connectCalls
              = exIdle.connectCalls
          ∧ (startSessionAttempt exIdle MicResult.permissionDenied).errorLogged = true
          ∧ (startSessionAttempt exIdle MicResult.permissionDenied).micLive
              = exIdle.micLive) :=
  ⟨rfl, rfl, device_failure_returns_to_idle exIdle MicResult.permissionDenied rfl rfl⟩

/-- C9: when the visual source has no current frame (video element, canvas
element or 2d context absent), `getFrame` returns null, the sampling tick
sends nothing, and the component state — including the installed sampling
timer — is unchanged, so the timer keeps running; both functions are total,
so no exception is possible. -/
theorem frame_sampler_not_ready_safe (st : AppState) (r : CameraRefs)
    (h : r.video = none ∨ r.canvas = none ∨ r.ctx2d = none) :
    getFrame r = none ∧ frameTick st (getFrame r) = (st, none) := by
  obtain ⟨v, c, x⟩ := r
  have hg : getFrame ⟨v, c, x⟩ = none := by
    cases v <;> cases c <;> cases x <;> simp_all [getFrame]
  refine ⟨hg, ?_⟩
  rw [hg]
  rfl

/-- Witness: polling the sampler while the video element is absent. -/
theorem frame_sampler_not_ready_safe_witness :
    (exCamera.video = none ∨ exCamera.canvas = none ∨ exCamera.ctx2d = none)
      ∧ (getFrame exCamera = none
          ∧ frameTick exActive (getFrame exCamera) = (exActive, none)) :=
  ⟨Or.inl rfl, frame_sampler_not_ready_safe exActive exCamera (Or.inl rfl)⟩

/-- C10: `stopSession` leaves `nextStartTimeRef` untouched (only the
interruption branch resets it), so when a session is stopped while the
cursor is ahead of the output clock, the first buffer enqueued by a later
session is scheduled at the stale future cursor — max(cursor, now) — and
not at "now". -/
theorem stale_cursor_survives_stop (st : AppState) (now dur : ℚ) (sid : Nat)
    (h : now < st.nextStartTimeRef) :
    (stopSession st).nextStartTimeRef = st.nextStartTimeRef
      ∧ (enqueueAudio (stopSession st) now dur sid).2 = st.nextStartTimeRef
      ∧ (enqueueAudio (stopSession st) now dur sid).2 ≠ now := by
  have hstop : (stopSession st).nextStartTimeRef = st.nextStartTimeRef := by
    cases h1 : st.sessionRef <;> cases h2 : st.frameIntervalRef <;>
      simp [stopSession, h1, h2]
  have hstart : (enqueueAudio (stopSession st) now dur sid).2 = st.nextStartTimeRef := by
    simp [enqueueAudio, hstop, max_eq_left (le_of_lt h)]
  refine ⟨hstop, hstart, ?_⟩
  rw [hstart]
  exact ne_of_gt h

/-- Witness: a session stopped at `exActive` (cursor 10) followed by an
enqueue when the clock reads 5 schedules at 10, not at 5. -/
theorem stale_cursor_survives_stop_witness :
    (5 : ℚ) < exActive.nextStartTimeRef
      ∧ ((stopSession exActive).nextStartTimeRef = exActive.nextStartTimeRef
          ∧ (enqueueAudio (stopSession exActive) 5 2 9).2 = exActive.nextStartTimeRef
          ∧ (enqueueAudio (stopSession exActive) 5 2 9).2 ≠ 5) :=
  ⟨by decide, stale_cursor_survives_stop exActive 5 2 9 (by decide)⟩

end ArtCoach
